import Mathlib

/-!
# semantic-urlshortener: the shorten / resolve pipeline

A shallow embedding of the four Go source files

* `pkg/keyword/generator.go`  (`GenerateKeyword`)
* `pkg/metadata/extractor.go` (`ExtractFromURL`, `extractFirstH1`, `extractText`)
* `pkg/storage/sqlite.go`     (`Init`, `Store`, `Get`, `Delete`)
* `main.go`                   (`processURL`, `handleShorten`)

Conventions.

* A Go `string` is a Lean `String`, read as well-formed UTF-8 text; `len(s)` is the
  number of bytes of the UTF-8 encoding, `s.utf8ByteSize`.
* Everything outside the process (the HTTP round trip and HTML parser, the chat
  completion service, `url.Parse`, the Unicode case tables, SQL driver faults) is a
  field of `Env`: the code is a function of what these return.
* Every outbound call is recorded as an `Event`, so that "no call was made" can be
  stated; the `urls` table is passed explicitly as `URLStorage`.
-/

set_option maxRecDepth 100000

deriving instance DecidableEq for Except

namespace UrlShortener

/-! ## Go standard library: `unicode` and `strings` -/

/-- Go `unicode.IsSpace`: the Latin-1 spaces `\t \n \v \f \r`, space, U+0085, U+00A0,
and above Latin-1 the `White_Space` range table. -/
def isSpace (r : Char) : Bool :=
  let n := r.toNat
  if n ≤ 0xFF then
    n = 0x09 || n = 0x0A || n = 0x0B || n = 0x0C || n = 0x0D || n = 0x20 || n = 0x85 || n = 0xA0
  else
    n = 0x1680 || (0x2000 ≤ n && n ≤ 0x200A) || n = 0x2028 || n = 0x2029 || n = 0x202F ||
      n = 0x205F || n = 0x3000

/-- Go `strings.TrimLeftFunc(s, unicode.IsSpace)` on the runes of `s`. -/
def trimLeft (cs : List Char) : List Char :=
  cs.dropWhile isSpace

/-- Go `strings.TrimRightFunc(s, unicode.IsSpace)` on the runes of `s`. -/
def trimRight (cs : List Char) : List Char :=
  (cs.reverse.dropWhile isSpace).reverse

/-- Go `strings.TrimSpace`: all leading and trailing white space removed. -/
def TrimSpace (s : String) : String :=
  ⟨trimRight (trimLeft s.data)⟩

/-- Go `unicode.ToLower`: below U+0080 only `A`..`Z` move (by 32); above, the rune is
looked up in the case tables of package `unicode`, here the function `caseTable`. -/
def toLowerRune (caseTable : Char → Char) (r : Char) : Char :=
  if r.toNat ≤ 0x7F then
    if 0x41 ≤ r.toNat ∧ r.toNat ≤ 0x5A then Char.ofNat (r.toNat + 0x20) else r
  else caseTable r

/-- Go `strings.ToLower`: every rune mapped through `unicode.ToLower`. -/
def ToLower (caseTable : Char → Char) (s : String) : String :=
  ⟨s.data.map (toLowerRune caseTable)⟩

/-- Go `strings.Contains`: `substr` occurs somewhere in `s`. -/
def Contains (s substr : String) : Bool :=
  s.data.tails.any (fun t => substr.data.isPrefixOf t)

/-- Go `len(s)`: the number of bytes of `s`. -/
def len (s : String) : Nat :=
  s.utf8ByteSize

/-- The lower-case mapping of `unicode.ToLower` on U+0080..U+00FF (the case ranges
U+00C0..U+00D6 and U+00D8..U+00DE move by 32, nothing else in the block moves when
lowering); runes above U+00FF are left alone.  Used for the concrete runs below, whose
texts stay within Latin-1. -/
def latin1CaseTable (r : Char) : Char :=
  let n := r.toNat
  if (0xC0 ≤ n ∧ n ≤ 0xD6) ∨ (0xD8 ≤ n ∧ n ≤ 0xDE) then Char.ofNat (n + 0x20) else r

/-! ## The world outside the process -/

/-- One entry per call that leaves the process. -/
inductive Event where
  | fetch (url : String)
  | chatCompletion (prompt : String)
  | dbCreateTable
  | dbExists (keyword : String)
  | dbInsert (keyword originalURL : String)
  | dbSelect (keyword : String)
  | dbDelete (keyword : String)
deriving DecidableEq, Repr

/-- The `html.NodeType` constants of `golang.org/x/net/html`. -/
inductive NodeType where
  | ErrorNode
  | TextNode
  | DocumentNode
  | ElementNode
  | CommentNode
  | DoctypeNode
  | RawNode
deriving DecidableEq, Repr

/-- The record `html.Attribute`. -/
structure Attribute where
  Namespace : String
  Key : String
  Val : String
deriving DecidableEq, Repr

/-- The tree `html.Node`: `children` is the chain `FirstChild`, `NextSibling`, ... of the
node, so `FirstChild` is the head of the list (and `nil` when the list is empty).
`DataAtom` and `Namespace`, which the traversal never reads, are left out. -/
inductive Node where
  | mk (type : NodeType) (Data : String) (Attr : List Attribute) (children : List Node)

/-- Field `Type` of `html.Node`. -/
def Node.type : Node → NodeType
  | .mk t _ _ _ => t

/-- Field `Data` of `html.Node`: the tag name of an element, the text of a text node. -/
def Node.Data : Node → String
  | .mk _ d _ _ => d

/-- Field `Attr` of `html.Node`. -/
def Node.Attr : Node → List Attribute
  | .mk _ _ a _ => a

/-- The children of a node, in sibling order. -/
def Node.children : Node → List Node
  | .mk _ _ _ cs => cs

/-- Field `FirstChild` of `html.Node`. -/
def Node.FirstChild (n : Node) : Option Node :=
  n.children.head?

/-- What the fetch of `ExtractFromURL` met: `http.NewRequest` failed; `client.Do` failed
(DNS, connection, timeout, ... before a response); or a response arrived, with its
`StatusCode` and what `html.Parse` makes of its body.  `html.Parse` returns an error, here
`none`, when reading `resp.Body` fails: the connection drops, or the 10 s `Timeout` of the
client, which also covers the reading of the body, expires after the headers arrived. -/
inductive FetchOutcome where
  | newRequestError
  | doError
  | response (StatusCode : Nat) (doc : Option Node)

/-- What `client.CreateChatCompletion` returned: an error, or the `Content` of each of
`resp.Choices` in order. -/
inductive Completion where
  | callError
  | choices (contents : List String)
deriving DecidableEq, Repr

/-- The collaborators of one request.
* `caseTable`: the case tables of Go package `unicode` (see `toLowerRune`);
* `urlParse`: `url.Parse`, `none` for an error and otherwise the `Scheme` of the result;
* `httpGet`: the GET of `ExtractFromURL`, by URL;
* `createChatCompletion`: the completion service, by user prompt (model, system message,
  token budget and temperature are constants of the request);
* `queryRowErr`, `execErr`: whether `QueryRow(..).Scan` / `Exec` of `database/sql`
  report a driver error (other than `sql.ErrNoRows`) during this request. -/
structure Env where
  caseTable : Char → Char
  urlParse : String → Option String
  httpGet : String → FetchOutcome
  createChatCompletion : String → Completion
  queryRowErr : Bool
  execErr : Bool

/-! ## `pkg/keyword/generator.go` -/

/-- The three `fmt.Errorf` exits of `GenerateKeyword`. -/
inductive GenerateError where
  | callFailed
  | noKeyword
  | invalidKeyword (keyword : String)
deriving DecidableEq, Repr

/-- The `fmt.Sprintf` prompt of `GenerateKeyword`. -/
def buildPrompt (title description keywords : String) : String :=
  "Generate a single, simple English word (noun) that best describes this website.\n\n" ++
  "Title: " ++ title ++ "\n" ++
  "Description: " ++ description ++ "\n" ++
  "Keywords: " ++ keywords ++ "\n\n" ++
  "Rules:\n" ++
  "1. Return ONLY the word, nothing else\n" ++
  "2. Word must be a simple noun\n" ++
  "3. Word must be lowercase\n" ++
  "4. No special characters or spaces\n" ++
  "5. Maximum 15 characters\n"

/-- The "Clean and validate the response" tail of `GenerateKeyword`, applied to
`resp.Choices[0].Message.Content`. -/
def cleanAndValidate (caseTable : Char → Char) (content : String) :
    Except GenerateError String :=
  let keyword := TrimSpace content
  let keyword := ToLower caseTable keyword
  if len keyword > 15 || Contains keyword " " || Contains keyword "\n" then
    .error (.invalidKeyword keyword)
  else
    .ok keyword

/-- `Generator.GenerateKeyword`: one completion call, then the checks on its answer. -/
def GenerateKeyword (env : Env) (title description keywords : String) :
    Except GenerateError String × List Event :=
  let prompt := buildPrompt title description keywords
  let result :=
    match env.createChatCompletion prompt with
    | .callError => .error .callFailed
    | .choices [] => .error .noKeyword
    | .choices (content :: _) => cleanAndValidate env.caseTable content
  (result, [.chatCompletion prompt])

/-! ## `pkg/metadata/extractor.go` -/

/-- The record `Metadata`. -/
structure Metadata where
  Title : String
  Description : String
  Keywords : String
  URL : String
deriving DecidableEq, Repr

/-- The three `fmt.Errorf` exits of `ExtractFromURL`; `statusCode` carries `resp.StatusCode`. -/
inductive ExtractError where
  | buildRequest
  | statusCode (code : Nat)
  | parseHTML
deriving DecidableEq, Repr

/-- The loop `for _, attr := range n.Attr` of the `"meta"` case, from the pair
`(name, content)` reached so far. -/
def scanAttrs (caseTable : Char → Char) : List Attribute → String × String → String × String
  | [], acc => acc
  | attr :: rest, (name, content) =>
    if attr.Key = "name" ∨ attr.Key = "property" then
      scanAttrs caseTable rest (ToLower caseTable attr.Val, content)
    else if attr.Key = "content" then
      scanAttrs caseTable rest (name, attr.Val)
    else
      scanAttrs caseTable rest (name, content)

/-- The body of the closure `f` of `ExtractFromURL` before it descends: what node `n`
itself does to `meta`. -/
def visitNode (caseTable : Char → Char) (n : Node) (m : Metadata) : Metadata :=
  if n.type = .ElementNode then
    if n.Data = "title" then
      match n.FirstChild with
      | some c => { m with Title := TrimSpace c.Data }
      | none => m
    else if n.Data = "meta" then
      let (name, content) := scanAttrs caseTable n.Attr ("", "")
      if name = "description" ∨ name = "og:description" then
        if m.Description = "" then { m with Description := content } else m
      else if name = "keywords" then
        { m with Keywords := content }
      else m
    else m
  else m

mutual
/-- The closure `f` of `ExtractFromURL`: the node itself, then each child in turn. -/
def f (caseTable : Char → Char) : Node → Metadata → Metadata
  | .mk t d a cs, m => fChildren caseTable cs (visitNode caseTable (.mk t d a cs) m)
/-- The loop `for c := n.FirstChild; c != nil; c = c.NextSibling` of `f`. -/
def fChildren (caseTable : Char → Char) : List Node → Metadata → Metadata
  | [], m => m
  | c :: cs, m => fChildren caseTable cs (f caseTable c m)
end

mutual
/-- `extractText`: appends to the builder `sb` the data of every text node below `n`. -/
def extractText : Node → String → String
  | .mk t d _ cs, sb => extractTextChildren cs (if t = .TextNode then sb ++ d else sb)
/-- The loop over the children in `extractText`. -/
def extractTextChildren : List Node → String → String
  | [], sb => sb
  | c :: cs, sb => extractTextChildren cs (extractText c sb)
end

mutual
/-- `extractFirstH1`. -/
def extractFirstH1 : Node → String
  | .mk t d a cs =>
    if t = .ElementNode ∧ d = "h1" then
      TrimSpace (extractText (.mk t d a cs) "")
    else
      extractFirstH1Children cs
/-- The loop over the children in `extractFirstH1`: the first non-empty result. -/
def extractFirstH1Children : List Node → String
  | [] => ""
  | c :: cs =>
    let result := extractFirstH1 c
    if result ≠ "" then result else extractFirstH1Children cs
end

/-- The part of `ExtractFromURL` after `html.Parse`: traversal, then the two fallbacks. -/
def extractFromDoc (caseTable : Char → Char) (url : String) (doc : Node) : Metadata :=
  let m : Metadata := { Title := "", Description := "", Keywords := "", URL := url }
  let m := f caseTable doc m
  let m := if m.Title = "" then { m with Title := extractFirstH1 doc } else m
  let m := if m.Title = "" then { m with Title := url } else m
  m

/-- `ExtractFromURL`. -/
def ExtractFromURL (env : Env) (url : String) : Except ExtractError Metadata × List Event :=
  match env.httpGet url with
  | .newRequestError => (.error .buildRequest, [])
  | .doError =>
    (.ok { Title := url, Description := "", Keywords := "", URL := url }, [.fetch url])
  | .response StatusCode doc =>
    if StatusCode ≠ 200 then
      (.error (.statusCode StatusCode), [.fetch url])
    else
      match doc with
      | none => (.error .parseHTML, [.fetch url])
      | some doc => (.ok (extractFromDoc env.caseTable url doc), [.fetch url])

/-! ## `pkg/storage/sqlite.go` -/

/-- The table `urls`: one pair `(keyword, original_url)` per row, in insertion order.
(`created_at` is written by the default and read by nothing.) -/
structure URLStorage where
  rows : List (String × String)
deriving DecidableEq, Repr

/-- The query `SELECT EXISTS(SELECT 1 FROM urls WHERE keyword = ?)`. -/
def URLStorage.selectExists (s : URLStorage) (keyword : String) : Bool :=
  s.rows.any (fun row => row.1 = keyword)

/-- The query `SELECT original_url FROM urls WHERE keyword = ?`, first row. -/
def URLStorage.selectURL (s : URLStorage) (keyword : String) : Option String :=
  (s.rows.find? (fun row => row.1 = keyword)).map (fun row => row.2)

/-- The statement `INSERT INTO urls (keyword, original_url) VALUES (?, ?)` under the
`PRIMARY KEY` constraint on `keyword`: `none` when the constraint rejects the row. -/
def URLStorage.insert (s : URLStorage) (keyword originalURL : String) : Option URLStorage :=
  if s.selectExists keyword then none else some { rows := s.rows ++ [(keyword, originalURL)] }

/-- The statement `DELETE FROM urls WHERE keyword = ?`: the table left and the number of
rows affected. -/
def URLStorage.delete (s : URLStorage) (keyword : String) : URLStorage × Nat :=
  ({ rows := s.rows.filter (fun row => row.1 ≠ keyword) },
   (s.rows.filter (fun row => row.1 = keyword)).length)

/-- The exits of `Store`. -/
inductive StoreError where
  | checkExistence
  | alreadyExists (keyword : String)
  | insertFailed
deriving DecidableEq, Repr

/-- The exits of `Get` and `Delete`. -/
inductive LookupError where
  | notFound (keyword : String)
  | driver
deriving DecidableEq, Repr

/-- `URLStorage.Init`: `CREATE TABLE IF NOT EXISTS` leaves an existing table as it is. -/
def Init (env : Env) (s : URLStorage) : Except Unit Unit × URLStorage × List Event :=
  (if env.execErr then .error () else .ok (), s, [.dbCreateTable])

/-- `URLStorage.Store`. -/
def Store (env : Env) (s : URLStorage) (keyword originalURL : String) :
    Except StoreError Unit × URLStorage × List Event :=
  if env.queryRowErr then
    (.error .checkExistence, s, [.dbExists keyword])
  else if s.selectExists keyword then
    (.error (.alreadyExists keyword), s, [.dbExists keyword])
  else if env.execErr then
    (.error .insertFailed, s, [.dbExists keyword, .dbInsert keyword originalURL])
  else
    match s.insert keyword originalURL with
    | none => (.error .insertFailed, s, [.dbExists keyword, .dbInsert keyword originalURL])
    | some s1 => (.ok (), s1, [.dbExists keyword, .dbInsert keyword originalURL])

/-- `URLStorage.Get`. -/
def Get (env : Env) (s : URLStorage) (keyword : String) :
    Except LookupError String × List Event :=
  if env.queryRowErr then
    (.error .driver, [.dbSelect keyword])
  else
    match s.selectURL keyword with
    | none => (.error (.notFound keyword), [.dbSelect keyword])
    | some url => (.ok url, [.dbSelect keyword])

/-- `URLStorage.Delete`; `RowsAffected` fails with the driver, if at all. -/
def Delete (env : Env) (s : URLStorage) (keyword : String) :
    Except LookupError Unit × URLStorage × List Event :=
  if env.execErr then
    (.error .driver, s, [.dbDelete keyword])
  else
    let (s1, rowsAffected) := s.delete keyword
    if rowsAffected = 0 then
      (.error (.notFound keyword), s1, [.dbDelete keyword])
    else
      (.ok (), s1, [.dbDelete keyword])

/-! ## `main.go` -/

/-- The three wrapped failures of `processURL`. -/
inductive ProcessError where
  | extract (e : ExtractError)
  | generate (e : GenerateError)
  | store (e : StoreError)
deriving DecidableEq, Repr

/-- `URLService.processURL`: extract, generate, store. -/
def processURL (env : Env) (s : URLStorage) (inputURL : String) :
    Except ProcessError String × URLStorage × List Event :=
  match ExtractFromURL env inputURL with
  | (.error e, ev1) => (.error (.extract e), s, ev1)
  | (.ok m, ev1) =>
    match GenerateKeyword env m.Title m.Description m.Keywords with
    | (.error e, ev2) => (.error (.generate e), s, ev1 ++ ev2)
    | (.ok keyword, ev2) =>
      match Store env s keyword inputURL with
      | (.error e, s1, ev3) => (.error (.store e), s1, ev1 ++ ev2 ++ ev3)
      | (.ok _, s1, ev3) => (.ok keyword, s1, ev1 ++ ev2 ++ ev3)

/-- An inbound request: `r.Method`, `r.URL.Path`, and for `/shorten` what
`json.NewDecoder(r.Body).Decode(&req)` left in `req.URL` (`none` when `Decode` fails). -/
structure Request where
  Method : String
  Path : String
  URL : Option String

/-- What `handleShorten` wrote: the status and text of `http.Error`, or (status 200) the
JSON of a `ShortenResponse`. -/
inductive Response where
  | error (status : Nat) (message : String)
  | shortened (Keyword URL : String)
deriving DecidableEq, Repr

/-- `URLService.handleShorten`. -/
def handleShorten (env : Env) (s : URLStorage) (r : Request) :
    Response × URLStorage × List Event :=
  if r.Method ≠ "POST" then
    (.error 405 "Method not allowed", s, [])
  else
    match r.URL with
    | none => (.error 400 "Invalid request body", s, [])
    | some reqURL =>
      match env.urlParse reqURL with
      | none => (.error 400 "Invalid URL", s, [])
      | some scheme =>
        if scheme ≠ "http" ∧ scheme ≠ "https" then
          (.error 400 "Invalid URL", s, [])
        else
          match processURL env s reqURL with
          | (.error _, s1, ev) => (.error 500 "Failed to process URL", s1, ev)
          | (.ok keyword, s1, ev) => (.shortened keyword reqURL, s1, ev)

/-! ## Concrete collaborators for the runs below -/

/-- An element node. -/
def el (tag : String) (attrs : List (String × String)) (children : List Node) : Node :=
  .mk .ElementNode tag (attrs.map (fun kv => { Namespace := "", Key := kv.1, Val := kv.2 })) children

/-- A text node. -/
def txt (data : String) : Node :=
  .mk .TextNode data [] []

/-- The document node `html.Parse` returns, around `html`, `head` and `body`. -/
def page (head body : List Node) : Node :=
  .mk .DocumentNode "" [] [el "html" [] [el "head" [] head, el "body" [] body]]

/-- A world in which every URL parses with scheme `https`, every fetch meets `outcome`,
every completion call meets `completion`, and the database driver reports no error. -/
def world (outcome : FetchOutcome) (completion : Completion) : Env where
  caseTable := latin1CaseTable
  urlParse := fun _ => some "https"
  httpGet := fun _ => outcome
  createChatCompletion := fun _ => completion
  queryRowErr := false
  execErr := false

/-! ## Readings of the specification used for comparison -/

/-- The pattern `^[a-z]{1,15}$` of the specification. -/
def matchesKeywordPattern (keyword : String) : Bool :=
  1 ≤ keyword.length && keyword.length ≤ 15 &&
    keyword.data.all (fun c => 0x61 ≤ c.toNat && c.toNat ≤ 0x7A)

mutual
/-- The nodes of the tree under `n`, `n` first, in document order (pre-order). -/
def preorder : Node → List Node
  | .mk t d a cs => .mk t d a cs :: preorderChildren cs
/-- The nodes of the trees under a list of siblings, in document order. -/
def preorderChildren : List Node → List Node
  | [] => []
  | c :: cs => preorder c ++ preorderChildren cs
end

/-- An element node with tag `tag`. -/
def isElement (tag : String) (n : Node) : Bool :=
  n.type = .ElementNode && n.Data = tag

/-- The concatenated text content of `n`: the data of the text nodes under it, in
document order. -/
def textContent (n : Node) : String :=
  ⟨((preorder n).filter (fun t => t.type = .TextNode)).flatMap (fun t => t.Data.data)⟩

/-- The value of the attribute `key` of a node (the first, should there be several). -/
def attrValue (n : Node) (key : String) : Option String :=
  (n.Attr.find? (fun a => a.Key = key)).map (fun a => a.Val)

/-- The Title as the specification words it: the text of the `<title>` element if the
document has one; otherwise the trimmed text content of the first `<h1>` in document
order; otherwise the URL. -/
def specTitle (url : String) (doc : Node) : String :=
  match (preorder doc).find? (isElement "title") with
  | some t => textContent t
  | none =>
    match (preorder doc).find? (isElement "h1") with
    | some h => TrimSpace (textContent h)
    | none => url

/-- The Description as the specification words it: the `content` attribute of the first
`<meta>` in document order whose `name` is "description" or whose `property` is
"og:description", values compared after lowercasing. -/
def specDescription (caseTable : Char → Char) (doc : Node) : String :=
  match (preorder doc).find? (fun n => isElement "meta" n &&
      (((attrValue n "name").map (ToLower caseTable) = some "description") ||
       ((attrValue n "property").map (ToLower caseTable) = some "og:description"))) with
  | some n => (attrValue n "content").getD ""
  | none => ""

/-- The `<title>` elements of a document, in document order. -/
def titleElements (doc : Node) : List Node :=
  (preorder doc).filter (isElement "title")

/-- What a `<title>` element offers as Title: the trimmed `Data` of its first child
(its text, for a title holding one text node), nothing when it has no child. -/
def titleText (t : Node) : String :=
  match t.FirstChild with
  | some c => TrimSpace c.Data
  | none => ""

/-- What node `n` puts into `meta.Title` in the traversal, if anything. -/
def titleUpdate (n : Node) : Option String :=
  if isElement "title" n then n.FirstChild.map (fun c => TrimSpace c.Data) else none

/-- The trimmed text content of each `<h1>` element, in document order. -/
def h1Texts (doc : Node) : List String :=
  ((preorder doc).filter (isElement "h1")).map (fun h => TrimSpace (textContent h))

/-- The last attribute of `n` whose key is one of `keys`. -/
def lastAttr (n : Node) (keys : List String) : Option Attribute :=
  (n.Attr.filter (fun a => decide (a.Key ∈ keys))).getLast?

/-- The lowercased value of the last `name` or `property` attribute of `n`. -/
def metaName (caseTable : Char → Char) (n : Node) : String :=
  match lastAttr n ["name", "property"] with
  | some a => ToLower caseTable a.Val
  | none => ""

/-- The value of the last `content` attribute of `n`, empty when it has none. -/
def metaContent (n : Node) : String :=
  match lastAttr n ["content"] with
  | some a => a.Val
  | none => ""

/-- A `<meta>` element that the code takes for a description. -/
def isDescriptionMeta (caseTable : Char → Char) (n : Node) : Bool :=
  isElement "meta" n &&
    (metaName caseTable n = "description" || metaName caseTable n = "og:description")

/-- The contents of the description `<meta>` elements, in document order. -/
def descriptionCandidates (caseTable : Char → Char) (doc : Node) : List String :=
  ((preorder doc).filter (isDescriptionMeta caseTable)).map metaContent

/-- A page whose first `<h1>` holds a logo and no text. -/
def docLogoH1 : Node :=
  page [] [el "h1" [] [el "img" [("src", "logo.png")] []], el "h1" [] [txt "Real"]]

/-- A page with an empty `<title>` and a heading. -/
def docEmptyTitle : Node :=
  page [el "title" [] []] [el "h1" [] [txt "Hello"]]

/-- A page with a `<title>` in the head and an inline SVG icon carrying its own. -/
def docTwoTitles : Node :=
  page [el "title" [] [txt "Home"]] [el "svg" [] [el "title" [] [txt "Close"]]]

/-- A page whose first description has empty content. -/
def docEmptyDescription : Node :=
  page [el "meta" [("name", "description"), ("content", "")] [],
        el "meta" [("property", "og:description"), ("content", "Real")] []] []

/-- A page whose description element also carries a `name` for another vocabulary. -/
def docTwoVocabularies : Node :=
  page [el "meta" [("property", "og:description"), ("name", "twitter:description"),
                   ("content", "Shared")] []] []

/-- A page giving "og:description" under `name`. -/
def docNameOg : Node :=
  page [el "meta" [("name", "og:description"), ("content", "Named")] []] []

/-! ## Lemmas on strings -/

theorem contains_singleton (cs : List Char) (c : Char) :
    (cs.tails.any (fun t => [c].isPrefixOf t)) = true ↔ c ∈ cs := by
  induction cs with
  | nil =>
    have h : ([[]] : List (List Char)).any (fun t => [c].isPrefixOf t) = false := rfl
    simp [h]
  | cons a l ih =>
    have h : [c].isPrefixOf (a :: l) = (c == a) := by
      simp only [List.isPrefixOf, Bool.and_true]
    rw [List.tails_cons, List.any_cons, Bool.or_eq_true, ih, h]
    simp

theorem Contains_space (s : String) : Contains s " " = true ↔ ' ' ∈ s.data :=
  contains_singleton s.data ' '

theorem Contains_newline (s : String) : Contains s "\n" = true ↔ '\n' ∈ s.data :=
  contains_singleton s.data '\n'

theorem length_le_go (cs : List Char) : cs.length ≤ String.utf8ByteSize.go cs := by
  induction cs with
  | nil => simp [String.utf8ByteSize.go]
  | cons a l ih =>
    have := Char.utf8Size_pos a
    simp only [String.utf8ByteSize.go, List.length_cons]
    omega

theorem length_le_utf8ByteSize (s : String) : s.length ≤ s.utf8ByteSize :=
  length_le_go s.data

theorem cleanAndValidate_ok_iff (caseTable : Char → Char) (content keyword : String) :
    cleanAndValidate caseTable content = .ok keyword ↔
      keyword = ToLower caseTable (TrimSpace content) ∧ keyword.utf8ByteSize ≤ 15 ∧
        ' ' ∉ keyword.data ∧ '\n' ∉ keyword.data := by
  unfold cleanAndValidate
  simp only [len, Bool.or_eq_true, decide_eq_true_eq, Contains_space, Contains_newline]
  split_ifs with h
  · constructor
    · intro h1
      cases h1
    · rintro ⟨rfl, h1, h2, h3⟩
      rcases h with (h | h) | h
      · omega
      · exact absurd h h2
      · exact absurd h h3
  · constructor
    · intro h1
      injection h1 with h1
      subst h1
      refine ⟨rfl, ?_, ?_, ?_⟩
      · by_contra hc
        exact h (Or.inl (Or.inl (by omega)))
      · exact fun hc => h (Or.inl (Or.inr hc))
      · exact fun hc => h (Or.inr hc)
    · rintro ⟨rfl, -⟩
      rfl

theorem cleanAndValidate_error_iff (caseTable : Char → Char) (content : String) :
    (∃ e, cleanAndValidate caseTable content = .error e) ↔
      15 < (ToLower caseTable (TrimSpace content)).utf8ByteSize ∨
        ' ' ∈ (ToLower caseTable (TrimSpace content)).data ∨
        '\n' ∈ (ToLower caseTable (TrimSpace content)).data := by
  unfold cleanAndValidate
  simp only [len, Bool.or_eq_true, decide_eq_true_eq, Contains_space, Contains_newline]
  split_ifs with h
  · simp only [Except.error.injEq, exists_eq', true_iff]
    tauto
  · simp only [exists_false, false_iff, reduceCtorEq]
    tauto

/-! ## Lemmas on the store and the pipeline -/

theorem Store_ok (env : Env) (s s1 : URLStorage) (k u : String) (ev : List Event)
    (h : Store env s k u = (.ok (), s1, ev)) :
    s.selectExists k = false ∧ s1 = ⟨s.rows ++ [(k, u)]⟩ := by
  unfold Store at h
  split_ifs at h with h1 h2 h3
  · cases h
  · cases h
  · cases h
  · simp only [URLStorage.insert, h2, Bool.false_eq_true, if_false] at h
    cases h
    exact ⟨by simpa using h2, rfl⟩

theorem Store_error_state (env : Env) (s s1 : URLStorage) (k u : String) (e : StoreError)
    (ev : List Event) (h : Store env s k u = (.error e, s1, ev)) : s1 = s := by
  unfold Store at h
  split_ifs at h with h1 h2 h3
  · cases h; rfl
  · cases h; rfl
  · cases h; rfl
  · simp only [URLStorage.insert, h2, Bool.false_eq_true, if_false] at h
    cases h

theorem selectURL_append_fresh (s : URLStorage) (k u : String) (h : s.selectExists k = false) :
    URLStorage.selectURL ⟨s.rows ++ [(k, u)]⟩ k = some u := by
  unfold URLStorage.selectExists at h
  have hnone : s.rows.find? (fun row => decide (row.1 = k)) = none := by
    rw [List.find?_eq_none]
    intro row hrow
    have := List.any_eq_false.mp h row hrow
    simpa using this
  simp [URLStorage.selectURL, List.find?_append, hnone]

theorem selectExists_append_self (s : URLStorage) (k u : String) :
    URLStorage.selectExists ⟨s.rows ++ [(k, u)]⟩ k = true := by
  simp [URLStorage.selectExists]

theorem processURL_ok (env : Env) (s s1 : URLStorage) (u k : String) (ev : List Event)
    (h : processURL env s u = (.ok k, s1, ev)) :
    ∃ m ev1 ev2 ev3, ExtractFromURL env u = (.ok m, ev1) ∧
      GenerateKeyword env m.Title m.Description m.Keywords = (.ok k, ev2) ∧
      Store env s k u = (.ok (), s1, ev3) := by
  unfold processURL at h
  split at h
  · cases h
  · rename_i m ev1 hE
    split at h
    · cases h
    · rename_i k2 ev2 hG
      split at h
      · cases h
      · rename_i x s2 ev3 hS
        cases h
        exact ⟨m, ev1, ev2, ev3, hE, hG, hS⟩

theorem processURL_error_state (env : Env) (s s1 : URLStorage) (u : String) (e : ProcessError)
    (ev : List Event) (h : processURL env s u = (.error e, s1, ev)) : s1 = s := by
  unfold processURL at h
  split at h
  · cases h; rfl
  · split at h
    · cases h; rfl
    · split at h
      · rename_i e3 s2 ev3 hS
        cases h
        exact Store_error_state _ _ _ _ _ _ _ hS
      · cases h

theorem GenerateKeyword_ok (env : Env) (title description keywords k : String) (ev : List Event)
    (h : GenerateKeyword env title description keywords = (.ok k, ev)) :
    ∃ content rest,
      env.createChatCompletion (buildPrompt title description keywords) = .choices (content :: rest) ∧
      cleanAndValidate env.caseTable content = .ok k := by
  unfold GenerateKeyword at h
  simp only [Prod.mk.injEq] at h
  obtain ⟨h, -⟩ := h
  split at h
  · cases h
  · cases h
  · rename_i content rest hc
    exact ⟨content, rest, hc, h⟩

/-! ## Lemmas on the traversal of the document -/

mutual
theorem f_eq_foldl (ct : Char → Char) : ∀ (n : Node) (m : Metadata),
    f ct n m = (preorder n).foldl (fun acc x => visitNode ct x acc) m
  | .mk t d a cs, m => by
    rw [f, preorder, List.foldl_cons, fChildren_eq_foldl ct cs]
theorem fChildren_eq_foldl (ct : Char → Char) : ∀ (cs : List Node) (m : Metadata),
    fChildren ct cs m = (preorderChildren cs).foldl (fun acc x => visitNode ct x acc) m
  | [], m => by
    rw [fChildren, preorderChildren, List.foldl_nil]
  | c :: cs, m => by
    rw [fChildren, preorderChildren, List.foldl_append, f_eq_foldl ct c,
      fChildren_eq_foldl ct cs]
end

theorem visitNode_Title (ct : Char → Char) (n : Node) (m : Metadata) :
    (visitNode ct n m).Title = (titleUpdate n).getD m.Title := by
  unfold visitNode titleUpdate isElement
  by_cases h1 : n.type = .ElementNode
  · by_cases h2 : n.Data = "title"
    · simp only [h1, h2, if_true, decide_True, Bool.and_self]
      cases n.FirstChild <;> rfl
    · simp only [h1, h2, if_true, if_false, decide_True, decide_False, Bool.and_false,
        Bool.false_eq_true, Option.getD_none]
      split_ifs <;> rfl
  · simp [h1]

theorem foldl_Title (ct : Char → Char) (l : List Node) : ∀ m : Metadata,
    (l.foldl (fun acc x => visitNode ct x acc) m).Title
      = ((l.filterMap titleUpdate).getLast?).getD m.Title := by
  induction l with
  | nil => intro m; rfl
  | cons a l ih =>
    intro m
    rw [List.foldl_cons, ih, visitNode_Title, List.filterMap_cons]
    cases h : titleUpdate a with
    | none => simp
    | some x => simp [List.getLast?_cons]

theorem scanAttrs_eq (ct : Char → Char) (attrs : List Attribute) : ∀ name content : String,
    scanAttrs ct attrs (name, content)
      = (match (attrs.filter (fun a => decide (a.Key ∈ ["name", "property"]))).getLast? with
          | some a => ToLower ct a.Val
          | none => name,
         match (attrs.filter (fun a => decide (a.Key ∈ ["content"]))).getLast? with
          | some a => a.Val
          | none => content) := by
  induction attrs with
  | nil => intro name content; rfl
  | cons a rest ih =>
    intro name content
    unfold scanAttrs
    by_cases h1 : a.Key = "name" ∨ a.Key = "property"
    · have hc : a.Key ≠ "content" := by
        rcases h1 with h | h <;> rw [h] <;> decide
      rw [if_pos h1, ih]
      have hk : decide (a.Key ∈ ["name", "property"]) = true := by simpa using h1
      have hk2 : decide (a.Key ∈ ["content"]) = false := by simpa using hc
      simp only [List.filter_cons, hk, hk2, if_true, Bool.false_eq_true, if_false,
        List.getLast?_cons]
      cases (List.filter (fun a => decide (a.Key ∈ ["name", "property"])) rest).getLast? <;> rfl
    · have hk : decide (a.Key ∈ ["name", "property"]) = false := by simpa using h1
      rw [if_neg h1]
      by_cases h2 : a.Key = "content"
      · have hk2 : decide (a.Key ∈ ["content"]) = true := by simpa using h2
        rw [if_pos h2, ih]
        simp only [List.filter_cons, hk, hk2, if_true, Bool.false_eq_true, if_false,
          List.getLast?_cons]
        cases (List.filter (fun a => decide (a.Key ∈ ["content"])) rest).getLast? <;> rfl
      · have hk2 : decide (a.Key ∈ ["content"]) = false := by simpa using h2
        rw [if_neg h2, ih]
        simp only [List.filter_cons, hk, hk2, Bool.false_eq_true, if_false]

theorem scanAttrs_node (ct : Char → Char) (n : Node) :
    scanAttrs ct n.Attr ("", "") = (metaName ct n, metaContent n) := by
  rw [scanAttrs_eq]
  rfl

theorem visitNode_Description (ct : Char → Char) (n : Node) (m : Metadata) :
    (visitNode ct n m).Description
      = if isDescriptionMeta ct n = true ∧ m.Description = "" then metaContent n
        else m.Description := by
  unfold visitNode isDescriptionMeta isElement
  rw [scanAttrs_node]
  by_cases h1 : n.type = .ElementNode
  · by_cases h2 : n.Data = "title"
    · have h3 : n.Data ≠ "meta" := by rw [h2]; decide
      simp only [h1, h2, h3, if_true, decide_True, decide_False, Bool.and_false,
        Bool.false_and, Bool.false_eq_true, false_and, if_false]
      cases n.FirstChild <;> rfl
    · by_cases h3 : n.Data = "meta"
      · simp only [h1, h3, if_true, decide_True, Bool.and_self, Bool.true_and,
          Bool.or_eq_true, decide_eq_true_eq]
        have h4 : ¬ ("meta" = "title") := by decide
        simp only [h4, if_false]
        by_cases h5 : metaName ct n = "description" ∨ metaName ct n = "og:description"
        · simp only [h5, if_true, true_and]
          split_ifs <;> rfl
        · simp only [h5, if_false, false_and]
          split_ifs <;> rfl
      · simp [h1, h2, h3]
  · simp [h1]

theorem foldl_Description (ct : Char → Char) (l : List Node) : ∀ m : Metadata,
    (l.foldl (fun acc x => visitNode ct x acc) m).Description
      = if m.Description = "" then
          ((((l.filter (isDescriptionMeta ct)).map metaContent).find? (fun d => d ≠ ""))).getD ""
        else m.Description := by
  induction l with
  | nil =>
    intro m
    by_cases h : m.Description = "" <;> simp [h]
  | cons a l ih =>
    intro m
    rw [List.foldl_cons, ih, visitNode_Description]
    by_cases hm : m.Description = ""
    · by_cases ha : isDescriptionMeta ct a = true
      · by_cases hc : metaContent a = ""
        · simp [hm, ha, hc]
        · simp [hm, ha, hc]
      · simp [hm, ha]
    · simp [hm]

theorem textContent_mk (t : NodeType) (d : String) (a : List Attribute) (cs : List Node) :
    (textContent (.mk t d a cs)).data
      = (if t = .TextNode then d.data else []) ++
        ((preorderChildren cs).filter (fun x => x.type = .TextNode)).flatMap
          (fun x => x.Data.data) := by
  unfold textContent
  rw [preorder]
  by_cases h : t = .TextNode
  · simp [List.filter_cons, Node.type, Node.Data, h]
  · simp [List.filter_cons, Node.type, h]

mutual
theorem extractText_data : ∀ (n : Node) (sb : String),
    (extractText n sb).data = sb.data ++ (textContent n).data
  | .mk t d a cs, sb => by
    rw [extractText, extractTextChildren_data cs, textContent_mk]
    by_cases h : t = .TextNode
    · simp [h, String.data_append]
    · simp [h]
theorem extractTextChildren_data : ∀ (cs : List Node) (sb : String),
    (extractTextChildren cs sb).data
      = sb.data ++ ((preorderChildren cs).filter (fun x => x.type = .TextNode)).flatMap
          (fun x => x.Data.data)
  | [], sb => by
    rw [extractTextChildren, preorderChildren]
    simp
  | c :: cs, sb => by
    rw [extractTextChildren, extractTextChildren_data cs, extractText_data c, preorderChildren,
      List.filter_append, List.flatMap_append, List.append_assoc]
    rfl
end

theorem extractText_empty (n : Node) : extractText n "" = textContent n := by
  apply String.ext
  rw [extractText_data]
  rfl

theorem dropWhile_all {p : Char → Bool} (l : List Char)
    (h : ∀ x ∈ l.dropWhile p, p x = true) : ∀ x ∈ l, p x = true := by
  induction l with
  | nil => intro x hx; cases hx
  | cons a t ih =>
    rw [List.dropWhile_cons] at h
    by_cases ha : p a = true
    · rw [if_pos ha] at h
      intro x hx
      rcases List.mem_cons.mp hx with rfl | hx
      · exact ha
      · exact ih h x hx
    · rw [if_neg ha] at h
      exact h

theorem TrimSpace_eq_empty_iff (s : String) :
    TrimSpace s = "" ↔ ∀ c ∈ s.data, isSpace c = true := by
  unfold TrimSpace trimRight trimLeft
  constructor
  · intro h
    have h1 : ((s.data.dropWhile isSpace).reverse.dropWhile isSpace).reverse = [] :=
      congrArg String.data h
    rw [List.reverse_eq_nil_iff, List.dropWhile_eq_nil_iff] at h1
    exact dropWhile_all s.data (fun x hx => h1 x (List.mem_reverse.mpr hx))
  · intro h
    have h1 : s.data.dropWhile isSpace = [] := List.dropWhile_eq_nil_iff.mpr h
    rw [h1]
    rfl

mutual
theorem preorder_trans : ∀ (n h : Node), h ∈ preorder n → ∀ x ∈ preorder h, x ∈ preorder n
  | .mk t d a cs, h, hh, x, hx => by
    rw [preorder] at hh
    rcases List.mem_cons.mp hh with rfl | hh
    · exact hx
    · rw [preorder]
      exact List.mem_cons_of_mem _ (preorderChildren_trans cs h hh x hx)
theorem preorderChildren_trans : ∀ (cs : List Node) (h : Node), h ∈ preorderChildren cs →
    ∀ x ∈ preorder h, x ∈ preorderChildren cs
  | [], h, hh, x, hx => by
    rw [preorderChildren] at hh
    cases hh
  | c :: cs, h, hh, x, hx => by
    rw [preorderChildren] at hh ⊢
    rcases List.mem_append.mp hh with hh | hh
    · exact List.mem_append_left _ (preorder_trans c h hh x hx)
    · exact List.mem_append_right _ (preorderChildren_trans cs h hh x hx)
end

theorem textContent_blank_below (n h : Node) (hh : h ∈ preorder n)
    (hn : TrimSpace (textContent n) = "") : TrimSpace (textContent h) = "" := by
  rw [TrimSpace_eq_empty_iff] at hn ⊢
  intro c hc
  apply hn
  unfold textContent at hc ⊢
  simp only [List.mem_flatMap, List.mem_filter] at hc ⊢
  obtain ⟨t, ⟨ht, htt⟩, hct⟩ := hc
  exact ⟨t, ⟨preorder_trans n h hh t ht, htt⟩, hct⟩

mutual
theorem extractFirstH1_eq : ∀ n : Node,
    extractFirstH1 n = ((h1Texts n).find? (fun x => x ≠ "")).getD ""
  | .mk t d a cs => by
    rw [extractFirstH1]
    unfold h1Texts
    rw [preorder]
    by_cases h : t = .ElementNode ∧ d = "h1"
    · have hel : isElement "h1" (.mk t d a cs) = true := by
        simp [isElement, Node.type, Node.Data, h.1, h.2]
      rw [if_pos h, extractText_empty, List.filter_cons, if_pos hel, List.map_cons,
        List.find?_cons]
      by_cases hb : TrimSpace (textContent (.mk t d a cs)) = ""
      · have hrest : List.find? (fun x => decide (x ≠ ""))
            (List.map (fun h => TrimSpace (textContent h))
              (List.filter (isElement "h1") (preorderChildren cs))) = none := by
          rw [List.find?_eq_none]
          intro x hx
          obtain ⟨y, hy, rfl⟩ := List.mem_map.mp hx
          have hy1 : y ∈ preorder (.mk t d a cs) := by
            rw [preorder]
            exact List.mem_cons_of_mem _ (List.mem_filter.mp hy).1
          simp [textContent_blank_below _ y hy1 hb]
        have hd : decide (TrimSpace (textContent (.mk t d a cs)) ≠ "") = false := by
          simp [hb]
        simp only [hd]
        rw [hrest, hb]
        rfl
      · simp [hb]
    · have hel : isElement "h1" (.mk t d a cs) = false := by
        simp only [isElement, Node.type, Node.Data, Bool.and_eq_false_imp, decide_eq_true_eq,
          decide_eq_false_iff_not]
        intro h1 h2
        exact h ⟨h1, h2⟩
      rw [if_neg h, extractFirstH1Children_eq cs, List.filter_cons]
      simp [hel]
theorem extractFirstH1Children_eq : ∀ cs : List Node,
    extractFirstH1Children cs
      = ((((preorderChildren cs).filter (isElement "h1")).map
          (fun h => TrimSpace (textContent h))).find? (fun x => x ≠ "")).getD ""
  | [] => by
    rw [extractFirstH1Children, preorderChildren]
    rfl
  | c :: cs => by
    rw [extractFirstH1Children, extractFirstH1Children_eq cs, extractFirstH1_eq c, preorderChildren,
      List.filter_append, List.map_append, List.find?_append]
    unfold h1Texts
    cases hf : List.find? (fun x => decide (x ≠ ""))
        (List.map (fun h => TrimSpace (textContent h))
          (List.filter (isElement "h1") (preorder c))) with
    | none => simp
    | some x =>
      have hx := List.find?_some hf
      simp only [decide_eq_true_eq] at hx
      simp [hx]
end

theorem extractFromDoc_Title (ct : Char → Char) (url : String) (doc : Node) :
    (extractFromDoc ct url doc).Title
      = if (((preorder doc).filterMap titleUpdate).getLast?).getD "" = "" then
          ((h1Texts doc).find? (fun x => x ≠ "")).getD url
        else (((preorder doc).filterMap titleUpdate).getLast?).getD "" := by
  have ht := foldl_Title ct (preorder doc)
    { Title := "", Description := "", Keywords := "", URL := url }
  rw [← f_eq_foldl] at ht
  simp only at ht
  unfold extractFromDoc
  simp only
  by_cases h : (((preorder doc).filterMap titleUpdate).getLast?).getD "" = ""
  · rw [h] at ht
    rw [if_pos h, if_pos ht, extractFirstH1_eq]
    cases hf : (h1Texts doc).find? (fun x => decide (x ≠ "")) with
    | none => simp
    | some x =>
      have hx := List.find?_some hf
      simp only [decide_eq_true_eq] at hx
      simp [hx]
  · have ht2 : ¬ (f ct doc { Title := "", Description := "", Keywords := "", URL := url }).Title
        = "" := by
      rw [ht]
      exact h
    rw [if_neg h, if_neg ht2, if_neg ht2, ht]

theorem extractFromDoc_Description (ct : Char → Char) (url : String) (doc : Node) :
    (extractFromDoc ct url doc).Description
      = ((descriptionCandidates ct doc).find? (fun d => d ≠ "")).getD "" := by
  have hd := foldl_Description ct (preorder doc)
    { Title := "", Description := "", Keywords := "", URL := url }
  rw [← f_eq_foldl] at hd
  simp only [if_true] at hd
  unfold extractFromDoc descriptionCandidates
  simp only
  rw [← hd]
  split_ifs <;> rfl

/-- With several `<title>` elements in a document, the last one that has a child decides
what the traversal leaves in `meta.Title`. -/
theorem title_last_wins (doc : Node) :
    (((preorder doc).filterMap titleUpdate).getLast?).getD ""
      = ((((titleElements doc).filter (fun t => t.FirstChild.isSome)).map titleText).getLast?).getD
          "" := by
  have h : (preorder doc).filterMap titleUpdate
      = ((titleElements doc).filter (fun t => t.FirstChild.isSome)).map titleText := by
    unfold titleElements
    induction preorder doc with
    | nil => rfl
    | cons a l ih =>
      rw [List.filterMap_cons, List.filter_cons]
      unfold titleUpdate at ih ⊢
      by_cases h1 : isElement "title" a = true
      · rw [if_pos h1, if_pos h1, List.filter_cons]
        cases hc : a.FirstChild with
        | none => simpa [hc] using ih
        | some c => simpa [hc, titleText] using ih
      · rw [if_neg h1, if_neg h1]
        exact ih
  rw [h]

theorem ExtractFromURL_ok (env : Env) (url : String) (doc : Node)
    (h : env.httpGet url = .response 200 (some doc)) :
    ExtractFromURL env url = (.ok (extractFromDoc env.caseTable url doc), [.fetch url]) := by
  simp [ExtractFromURL, h]

/-! ## C1, C2: the keyword generator -/

/-- C1 (as stated, refuted): three runs of `processURL` that succeed with a keyword
outside `^[a-z]{1,15}$`: the empty keyword (a blank completion), a keyword with a
hyphen, and a keyword with a digit and a tab inside. -/
theorem C1_counterexample :
    ((processURL (world .doError (.choices ["  "])) ⟨[]⟩ "https://example.com").1 = .ok "" ∧
      matchesKeywordPattern "" = false) ∧
    ((processURL (world .doError (.choices ["E-mail"])) ⟨[]⟩ "https://example.com").1
        = .ok "e-mail" ∧
      matchesKeywordPattern "e-mail" = false) ∧
    ((processURL (world .doError (.choices ["web2\tgo\n"])) ⟨[]⟩ "https://example.com").1
        = .ok "web2\tgo" ∧
      matchesKeywordPattern "web2\tgo" = false) := by
  decide

/-- C1 (amended): whenever `processURL` succeeds, the keyword it returns is the first
completion of the call made, trimmed and lowercased; its UTF-8 encoding has at most 15
bytes, and it contains neither a space nor a newline. -/
theorem C1_keyword_shape (env : Env) (s s1 : URLStorage) (inputURL keyword : String)
    (ev : List Event) (h : processURL env s inputURL = (.ok keyword, s1, ev)) :
    keyword.utf8ByteSize ≤ 15 ∧ ' ' ∉ keyword.data ∧ '\n' ∉ keyword.data ∧
      ∃ m content rest, (ExtractFromURL env inputURL).1 = .ok m ∧
        env.createChatCompletion (buildPrompt m.Title m.Description m.Keywords)
          = .choices (content :: rest) ∧
        keyword = ToLower env.caseTable (TrimSpace content) := by
  obtain ⟨m, ev1, ev2, ev3, hE, hG, -⟩ := processURL_ok env s s1 inputURL keyword ev h
  obtain ⟨content, rest, hc, hv⟩ := GenerateKeyword_ok env _ _ _ keyword ev2 hG
  obtain ⟨hk, hlen, hsp, hnl⟩ := (cleanAndValidate_ok_iff _ _ _).mp hv
  exact ⟨hlen, hsp, hnl, m, content, rest, by rw [hE], hc, hk⟩

/-- C1 (amended), a run: page title "Example Domain", completion " Sample". -/
theorem C1_keyword_shape_witness :
    "sample".utf8ByteSize ≤ 15 ∧ ' ' ∉ "sample".data ∧ '\n' ∉ "sample".data ∧
      ∃ m content rest,
        (ExtractFromURL (world .doError (.choices [" Sample"])) "https://example.com").1 = .ok m ∧
        (world .doError (.choices [" Sample"])).createChatCompletion
            (buildPrompt m.Title m.Description m.Keywords) = .choices (content :: rest) ∧
        "sample" = ToLower (world .doError (.choices [" Sample"])).caseTable (TrimSpace content) :=
  C1_keyword_shape (world .doError (.choices [" Sample"])) ⟨[]⟩
    ⟨[("sample", "https://example.com")]⟩ "https://example.com" "sample"
    [.fetch "https://example.com",
     .chatCompletion (buildPrompt "https://example.com" "" ""),
     .dbExists "sample", .dbInsert "sample" "https://example.com"] (by decide)

/-- C2 (as stated, refuted): the completion "éééééééé" is already trimmed and lowercase,
has 8 characters (16 bytes), no space and no newline, and `GenerateKeyword` fails on it. -/
theorem C2_counterexample :
    ToLower latin1CaseTable (TrimSpace "éééééééé") = "éééééééé" ∧
    "éééééééé".length = 8 ∧ "éééééééé".utf8ByteSize = 16 ∧
    ' ' ∉ "éééééééé".data ∧ '\n' ∉ "éééééééé".data ∧
    (GenerateKeyword (world .doError (.choices ["éééééééé"])) "Title" "" "").1
      = .error (.invalidKeyword "éééééééé") := by
  decide

/-- C2 (amended): `GenerateKeyword` fails if and only if the external call errors, or
returns zero completions, or the first completion, trimmed and lowercased, is longer than
15 bytes in UTF-8 or contains a space or a newline; in every other case it returns
exactly that trimmed, lowercased text.  A text of more than 15 characters is always
longer than 15 bytes. -/
theorem C2_generateKeyword_outcome (env : Env) (title description keywords : String) :
    ((∃ e, (GenerateKeyword env title description keywords).1 = .error e) ↔
      env.createChatCompletion (buildPrompt title description keywords) = .callError ∨
      env.createChatCompletion (buildPrompt title description keywords) = .choices [] ∨
      ∃ content rest,
        env.createChatCompletion (buildPrompt title description keywords)
          = .choices (content :: rest) ∧
        (15 < (ToLower env.caseTable (TrimSpace content)).utf8ByteSize ∨
          ' ' ∈ (ToLower env.caseTable (TrimSpace content)).data ∨
          '\n' ∈ (ToLower env.caseTable (TrimSpace content)).data)) ∧
    (∀ content rest,
      env.createChatCompletion (buildPrompt title description keywords)
        = .choices (content :: rest) →
      ((GenerateKeyword env title description keywords).1
          = .ok (ToLower env.caseTable (TrimSpace content)) ↔
        ((ToLower env.caseTable (TrimSpace content)).utf8ByteSize ≤ 15 ∧
          ' ' ∉ (ToLower env.caseTable (TrimSpace content)).data ∧
          '\n' ∉ (ToLower env.caseTable (TrimSpace content)).data)) ∧
      (ToLower env.caseTable (TrimSpace content)).length
        ≤ (ToLower env.caseTable (TrimSpace content)).utf8ByteSize) := by
  refine ⟨?_, ?_⟩
  · unfold GenerateKeyword
    simp only
    split
    · rename_i hc
      simp [hc]
    · rename_i hc
      simp [hc]
    · rename_i content rest hc
      rw [cleanAndValidate_error_iff]
      simp [hc]
  · intro content rest hc
    refine ⟨?_, length_le_utf8ByteSize _⟩
    unfold GenerateKeyword
    simp only [hc]
    rw [cleanAndValidate_ok_iff]
    simp

/-- C2 (amended), a run: the completion " Sample" gives the keyword "sample". -/
theorem C2_generateKeyword_outcome_witness :
    (GenerateKeyword (world .doError (.choices [" Sample"])) "Title" "" "").1 = .ok "sample" :=
  ((C2_generateKeyword_outcome (world .doError (.choices [" Sample"])) "Title" "" "").2
    " Sample" [] rfl).1.mpr (by decide)

/-! ## C3, C4, C7: the store and the round trip -/

/-- C3: on a table without keyword `k`, `Store(k, u1)` succeeds; a following
`Store(k, u2)` fails with the duplicate-keyword error and leaves the table as it is, and
`Get(k)` still returns `u1`.  (The driver reports no error in the first `Store`, in the
existence query of the second and in `Get`; whatever the driver does, the second `Store`
fails and leaves the table as it is.) -/
theorem C3_store_twice (env1 env2 env3 : Env) (s : URLStorage) (k u1 u2 : String)
    (hfresh : s.selectExists k = false)
    (h1q : env1.queryRowErr = false) (h1e : env1.execErr = false)
    (h2q : env2.queryRowErr = false) (h3q : env3.queryRowErr = false) :
    (Store env1 s k u1).1 = .ok () ∧
    (Store env2 (Store env1 s k u1).2.1 k u2).1 = .error (.alreadyExists k) ∧
    (Store env2 (Store env1 s k u1).2.1 k u2).2.1 = (Store env1 s k u1).2.1 ∧
    (Get env3 (Store env2 (Store env1 s k u1).2.1 k u2).2.1 k).1 = .ok u1 ∧
    (∀ env : Env, (∃ e, (Store env (Store env1 s k u1).2.1 k u2).1 = .error e) ∧
      (Store env (Store env1 s k u1).2.1 k u2).2.1 = (Store env1 s k u1).2.1) := by
  have hS1 : Store env1 s k u1
      = (.ok (), ⟨s.rows ++ [(k, u1)]⟩, [.dbExists k, .dbInsert k u1]) := by
    simp [Store, h1q, h1e, hfresh, URLStorage.insert]
  have hex := selectExists_append_self s k u1
  have hS2 : ∀ env : Env, env.queryRowErr = false →
      Store env ⟨s.rows ++ [(k, u1)]⟩ k u2
        = (.error (.alreadyExists k), ⟨s.rows ++ [(k, u1)]⟩, [.dbExists k]) := by
    intro env hq
    simp [Store, hq, hex]
  rw [hS1]
  refine ⟨rfl, ?_, ?_, ?_, ?_⟩
  · rw [hS2 env2 h2q]
  · rw [hS2 env2 h2q]
  · rw [hS2 env2 h2q]
    simp [Get, h3q, selectURL_append_fresh s k u1 hfresh]
  · intro env
    cases hq : env.queryRowErr
    · rw [hS2 env hq]
      exact ⟨⟨_, rfl⟩, rfl⟩
    · simp [Store, hq]

/-- C3, a run on a table holding another keyword. -/
theorem C3_store_twice_witness :
    (Store (world .doError .callError) ⟨[("news", "https://a.example")]⟩
      "sample" "https://example.com").1 = .ok () ∧
    (Store (world .doError .callError)
      (Store (world .doError .callError) ⟨[("news", "https://a.example")]⟩
        "sample" "https://example.com").2.1 "sample" "https://other.example").1
      = .error (.alreadyExists "sample") ∧
    (Get (world .doError .callError)
      (Store (world .doError .callError)
        (Store (world .doError .callError) ⟨[("news", "https://a.example")]⟩
          "sample" "https://example.com").2.1 "sample" "https://other.example").2.1
      "sample").1 = .ok "https://example.com" :=
  have h := C3_store_twice (world .doError .callError) (world .doError .callError)
    (world .doError .callError) ⟨[("news", "https://a.example")]⟩
    "sample" "https://example.com" "https://other.example" (by decide) rfl rfl rfl rfl
  ⟨h.1, h.2.1, h.2.2.2.1⟩

/-- C4: if `processURL` succeeds on `u` and returns `k`, then on the table it leaves,
`Get(k)`, the lookup `handleRedirect` makes, succeeds and returns exactly `u` (the driver
reporting no error in that lookup). -/
theorem C4_round_trip (env env2 : Env) (s s1 : URLStorage) (u k : String) (ev : List Event)
    (h : processURL env s u = (.ok k, s1, ev)) (hq : env2.queryRowErr = false) :
    (Get env2 s1 k).1 = .ok u := by
  obtain ⟨m, ev1, ev2, ev3, -, -, hS⟩ := processURL_ok env s s1 u k ev h
  obtain ⟨hfresh, rfl⟩ := Store_ok env s s1 k u ev3 hS
  have hG : Get env2 ⟨s.rows ++ [(k, u)]⟩ k = (.ok u, [.dbSelect k]) := by
    simp [Get, hq, selectURL_append_fresh s k u hfresh]
  rw [hG]

/-- C4, the run of the specification: "https://example.com", title "Example Domain",
completion "sample". -/
theorem C4_round_trip_witness :
    processURL
        (world (.response 200 (some (page [el "title" [] [txt "Example Domain"]] [])))
          (.choices ["sample"])) ⟨[]⟩ "https://example.com"
      = (.ok "sample", ⟨[("sample", "https://example.com")]⟩,
          [.fetch "https://example.com", .chatCompletion (buildPrompt "Example Domain" "" ""),
           .dbExists "sample", .dbInsert "sample" "https://example.com"]) ∧
    (Get (world .doError .callError) ⟨[("sample", "https://example.com")]⟩ "sample").1
      = .ok "https://example.com" :=
  ⟨by decide,
   C4_round_trip
    (world (.response 200 (some (page [el "title" [] [txt "Example Domain"]] [])))
      (.choices ["sample"]))
    (world .doError .callError) ⟨[]⟩ ⟨[("sample", "https://example.com")]⟩
    "https://example.com" "sample"
    [.fetch "https://example.com", .chatCompletion (buildPrompt "Example Domain" "" ""),
     .dbExists "sample", .dbInsert "sample" "https://example.com"] (by decide) rfl⟩

/-- C7: if `processURL` fails, at whatever stage, the table it leaves is the table it
was given. -/
theorem C7_failure_leaves_store (env : Env) (s s1 : URLStorage) (u : String) (e : ProcessError)
    (ev : List Event) (h : processURL env s u = (.error e, s1, ev)) : s1 = s :=
  processURL_error_state env s s1 u e ev h

/-- C7, a run failing at the store stage: the keyword "sample" is already taken. -/
theorem C7_failure_leaves_store_witness :
    processURL (world .doError (.choices ["sample"])) ⟨[("sample", "https://a.example")]⟩
        "https://example.com"
      = (.error (.store (.alreadyExists "sample")), ⟨[("sample", "https://a.example")]⟩,
          [.fetch "https://example.com",
           .chatCompletion (buildPrompt "https://example.com" "" ""), .dbExists "sample"]) ∧
    (⟨[("sample", "https://a.example")]⟩ : URLStorage) = ⟨[("sample", "https://a.example")]⟩ :=
  ⟨by decide,
   C7_failure_leaves_store (world .doError (.choices ["sample"]))
    ⟨[("sample", "https://a.example")]⟩ ⟨[("sample", "https://a.example")]⟩
    "https://example.com" (.store (.alreadyExists "sample"))
    [.fetch "https://example.com", .chatCompletion (buildPrompt "https://example.com" "" ""),
     .dbExists "sample"] (by decide)⟩

/-! ## C5, C6, C10: validation and the fetch -/

/-- C5: a POST to `/shorten` whose URL fails to parse, or parses to a scheme other than
`http` and `https` (the empty scheme included), is answered 400 "Invalid URL"; no call
leaves the process (no fetch, no completion call, no database statement) and the table
is as it was. -/
theorem C5_invalid_url_rejected (env : Env) (s : URLStorage) (r : Request) (reqURL : String)
    (hm : r.Method = "POST") (hb : r.URL = some reqURL)
    (hbad : env.urlParse reqURL = none ∨
      ∃ scheme, env.urlParse reqURL = some scheme ∧ scheme ≠ "http" ∧ scheme ≠ "https") :
    handleShorten env s r = (.error 400 "Invalid URL", s, []) := by
  unfold handleShorten
  simp only [hm, hb, ne_eq, not_true_eq_false, if_false]
  rcases hbad with h | ⟨scheme, h, h1, h2⟩
  · simp [h]
  · simp [h, h1, h2]

/-- C5, two runs: "ftp://example.com" parsing to scheme `ftp`, and the relative reference
"example.com/page" parsing to the empty scheme. -/
theorem C5_invalid_url_rejected_witness :
    handleShorten
        { world .doError (.choices ["sample"]) with urlParse := fun _ => some "ftp" } ⟨[]⟩
        { Method := "POST", Path := "/shorten", URL := some "ftp://example.com" }
      = (.error 400 "Invalid URL", ⟨[]⟩, []) ∧
    handleShorten
        { world .doError (.choices ["sample"]) with urlParse := fun _ => some "" } ⟨[]⟩
        { Method := "POST", Path := "/shorten", URL := some "example.com/page" }
      = (.error 400 "Invalid URL", ⟨[]⟩, []) :=
  ⟨C5_invalid_url_rejected
      { world .doError (.choices ["sample"]) with urlParse := fun _ => some "ftp" } ⟨[]⟩
      { Method := "POST", Path := "/shorten", URL := some "ftp://example.com" }
      "ftp://example.com" rfl rfl (Or.inr ⟨"ftp", rfl, by decide, by decide⟩),
   C5_invalid_url_rejected
      { world .doError (.choices ["sample"]) with urlParse := fun _ => some "" } ⟨[]⟩
      { Method := "POST", Path := "/shorten", URL := some "example.com/page" }
      "example.com/page" rfl rfl (Or.inr ⟨"", rfl, by decide, by decide⟩)⟩

/-- C6 (as stated, refuted): a fetch that fails at the network level after the response
headers arrived (status 200, then the connection drops or the timeout expires while the
body is read, so that `html.Parse` returns an error): `ExtractFromURL` returns the
"failed to parse HTML" error and no degraded metadata, and `processURL` fails after the
fetch alone, without a completion call. -/
theorem C6_counterexample :
    ExtractFromURL (world (.response 200 none) (.choices ["sample"])) "https://example.com"
      = (.error .parseHTML, [.fetch "https://example.com"]) ∧
    processURL (world (.response 200 none) (.choices ["sample"])) ⟨[]⟩ "https://example.com"
      = (.error (.extract .parseHTML), ⟨[]⟩, [.fetch "https://example.com"]) := by
  decide

/-- C6 (amended): when the fetch fails before a response arrives, that is when
`client.Do` returns an error, `ExtractFromURL` succeeds with Title the URL and empty
Description and Keywords, and `processURL` goes on to the completion call with the prompt
built from those values, ending as the generator and the store decide; when the response
has status 500, `processURL` fails at extraction after the fetch alone, with no
completion call and no database statement, the table as it was. -/
theorem C6_degrade_or_fail (env : Env) (s : URLStorage) (url : String) :
    (env.httpGet url = .doError →
      ExtractFromURL env url
        = (.ok { Title := url, Description := "", Keywords := "", URL := url }, [.fetch url]) ∧
      (∃ rest, (processURL env s url).2.2
        = .fetch url :: .chatCompletion (buildPrompt url "" "") :: rest) ∧
      (∀ e, (GenerateKeyword env url "" "").1 = .error e →
        (processURL env s url).1 = .error (.generate e)) ∧
      (∀ keyword, (GenerateKeyword env url "" "").1 = .ok keyword →
        (processURL env s url).2.2
          = .fetch url :: .chatCompletion (buildPrompt url "" "") :: (Store env s keyword url).2.2)) ∧
    (∀ doc, env.httpGet url = .response 500 doc →
      (ExtractFromURL env url).1 = .error (.statusCode 500) ∧
      processURL env s url = (.error (.extract (.statusCode 500)), s, [.fetch url])) := by
  constructor
  · intro h
    have hE : ExtractFromURL env url
        = (.ok { Title := url, Description := "", Keywords := "", URL := url }, [.fetch url]) := by
      simp [ExtractFromURL, h]
    have hG : GenerateKeyword env url "" ""
        = ((GenerateKeyword env url "" "").1, [.chatCompletion (buildPrompt url "" "")]) := rfl
    refine ⟨hE, ?_, ?_, ?_⟩
    · unfold processURL
      rw [hE]
      simp only
      rw [hG]
      cases hg : (GenerateKeyword env url "" "").1 with
      | error e => exact ⟨[], rfl⟩
      | ok keyword =>
        simp only
        rcases hS : Store env s keyword url with ⟨r, s1, ev3⟩
        cases r <;> exact ⟨ev3, rfl⟩
    · intro e he
      unfold processURL
      rw [hE]
      simp only
      rw [hG, he]
    · intro keyword hk
      unfold processURL
      rw [hE]
      simp only
      rw [hG, hk]
      simp only
      rcases hS : Store env s keyword url with ⟨r, s1, ev3⟩
      cases r <;> rfl
  · intro doc h
    have hE : ExtractFromURL env url = (.error (.statusCode 500), [.fetch url]) := by
      simp [ExtractFromURL, h]
    refine ⟨by rw [hE], ?_⟩
    unfold processURL
    rw [hE]

/-- C6 (amended), two runs: a fetch on which `client.Do` fails, and a fetch answered 500. -/
theorem C6_degrade_or_fail_witness :
    ExtractFromURL (world .doError (.choices ["sample"])) "https://example.com"
      = (.ok { Title := "https://example.com", Description := "", Keywords := "",
               URL := "https://example.com" }, [.fetch "https://example.com"]) ∧
    processURL (world (.response 500 none) (.choices ["sample"])) ⟨[]⟩ "https://example.com"
      = (.error (.extract (.statusCode 500)), ⟨[]⟩, [.fetch "https://example.com"]) :=
  ⟨((C6_degrade_or_fail (world .doError (.choices ["sample"])) ⟨[]⟩ "https://example.com").1
      rfl).1,
   ((C6_degrade_or_fail (world (.response 500 none) (.choices ["sample"])) ⟨[]⟩
      "https://example.com").2 none rfl).2⟩

/-- C10: on a response whose status code is not 200 (201, 204, 206, ... included),
`ExtractFromURL` returns the error carrying that status code, and no metadata; so a
response on which it succeeds has status code exactly 200. -/
theorem C10_only_status_200 (env : Env) (url : String) (code : Nat) (doc : Option Node)
    (h : env.httpGet url = .response code doc) :
    (code ≠ 200 → ExtractFromURL env url = (.error (.statusCode code), [.fetch url])) ∧
    (∀ m, (ExtractFromURL env url).1 = .ok m → code = 200) := by
  have h1 : code ≠ 200 → ExtractFromURL env url = (.error (.statusCode code), [.fetch url]) := by
    intro hc
    simp [ExtractFromURL, h, hc]
  refine ⟨h1, ?_⟩
  intro m hm
  by_contra hc
  rw [h1 hc] at hm
  cases hm

/-- C10, a run: a response with status 204. -/
theorem C10_only_status_200_witness :
    ExtractFromURL (world (.response 204 (some (page [] []))) .callError) "https://example.com"
      = (.error (.statusCode 204), [.fetch "https://example.com"]) :=
  (C10_only_status_200 (world (.response 204 (some (page [] []))) .callError)
    "https://example.com" 204 (some (page [] [])) rfl).1 (by decide)

/-! ## C8, C9: what the traversal extracts -/

/-- C8 (as stated, refuted): three fetched pages on which the Title differs from the
title, first `<h1>`, URL order: a first `<h1>` without text is passed over for a later
one; an empty `<title>` gives way to the `<h1>`; of two `<title>` elements the later one
is taken. -/
theorem C8_counterexample :
    ((ExtractFromURL (world (.response 200 (some docLogoH1)) .callError) "https://example.com").1
        = .ok ⟨"Real", "", "", "https://example.com"⟩ ∧
      specTitle "https://example.com" docLogoH1 = "") ∧
    ((ExtractFromURL (world (.response 200 (some docEmptyTitle)) .callError)
        "https://example.com").1 = .ok ⟨"Hello", "", "", "https://example.com"⟩ ∧
      specTitle "https://example.com" docEmptyTitle = "") ∧
    ((ExtractFromURL (world (.response 200 (some docTwoTitles)) .callError)
        "https://example.com").1 = .ok ⟨"Close", "", "", "https://example.com"⟩ ∧
      specTitle "https://example.com" docTwoTitles = "Home") := by
  decide

/-- C8 (amended): for a fetched and parsed document with at most one `<title>` element:
the Title is the trimmed data of that element's first child when it has one and this is
not empty; otherwise it is the trimmed text content of the first `<h1>` in document order
whose trimmed text content is not empty; otherwise the URL.  For every document, the
Title is not empty when the URL is not empty. -/
theorem C8_title_source (env : Env) (url : String) (doc : Node)
    (h : env.httpGet url = .response 200 (some doc)) :
    ∃ m, (ExtractFromURL env url).1 = .ok m ∧
      (∀ t, titleElements doc = [t] → titleText t ≠ "" → m.Title = titleText t) ∧
      ((titleElements doc = [] ∨ ∃ t, titleElements doc = [t] ∧ titleText t = "") →
        m.Title = ((h1Texts doc).find? (fun x => x ≠ "")).getD url) ∧
      (url ≠ "" → m.Title ≠ "") := by
  refine ⟨extractFromDoc env.caseTable url doc, by rw [ExtractFromURL_ok env url doc h], ?_, ?_, ?_⟩
  · intro t ht hne
    rw [extractFromDoc_Title, title_last_wins, ht]
    unfold titleText at hne ⊢
    cases hc : t.FirstChild with
    | none => rw [hc] at hne; exact absurd rfl hne
    | some c =>
      rw [hc] at hne
      simp only at hne
      simp [List.filter_cons, hc, hne, titleText]
  · intro hcase
    rw [extractFromDoc_Title, title_last_wins]
    rcases hcase with ht | ⟨t, ht, hempty⟩
    · rw [ht]
      simp
    · rw [ht]
      by_cases hc : t.FirstChild.isSome = true
      · simp [List.filter_cons, hc, hempty]
      · simp [List.filter_cons, hc]
  · intro hurl
    rw [extractFromDoc_Title]
    split_ifs with ht
    · cases hf : (h1Texts doc).find? (fun x => decide (x ≠ "")) with
      | none => simpa using hurl
      | some x =>
        have hx := List.find?_some hf
        simp only [decide_eq_true_eq] at hx
        simpa using hx
    · exact ht

/-- C8 (amended), three runs: a page with title "Example Domain"; a page with an empty
title and heading "Hello"; a page with neither. -/
theorem C8_title_source_witness :
    (∃ m, (ExtractFromURL (world (.response 200 (some (page [el "title" [] [txt "Example Domain"]]
          [el "h1" [] [txt "Heading"]]))) .callError) "https://example.com").1 = .ok m ∧
        m.Title = "Example Domain") ∧
    (∃ m, (ExtractFromURL (world (.response 200 (some docEmptyTitle)) .callError)
          "https://example.com").1 = .ok m ∧ m.Title = "Hello") ∧
    (∃ m, (ExtractFromURL (world (.response 200 (some (page [] []))) .callError)
          "https://example.com").1 = .ok m ∧ m.Title = "https://example.com" ∧ m.Title ≠ "") := by
  refine ⟨?_, ?_, ?_⟩
  · obtain ⟨m, hm, h1, -, -⟩ := C8_title_source
      (world (.response 200 (some (page [el "title" [] [txt "Example Domain"]]
        [el "h1" [] [txt "Heading"]]))) .callError) "https://example.com" _ rfl
    exact ⟨m, hm, h1 (el "title" [] [txt "Example Domain"]) rfl (by decide)⟩
  · obtain ⟨m, hm, -, h2, -⟩ := C8_title_source
      (world (.response 200 (some docEmptyTitle)) .callError) "https://example.com" _ rfl
    exact ⟨m, hm, h2 (Or.inr ⟨el "title" [] [], rfl, by decide⟩)⟩
  · obtain ⟨m, hm, -, h2, h3⟩ := C8_title_source
      (world (.response 200 (some (page [] []))) .callError) "https://example.com" _ rfl
    exact ⟨m, hm, h2 (Or.inl rfl), h3 (by decide)⟩

/-- C9 (as stated, refuted): three fetched pages on which the Description is not the
content of the first `<meta>` named "description" or with property "og:description": a
first match with empty content yields to a later one; a matching `property` is masked by
a `name` attribute after it; and "og:description" given under `name` is taken. -/
theorem C9_counterexample :
    ((ExtractFromURL (world (.response 200 (some docEmptyDescription)) .callError)
        "https://example.com").1
        = .ok ⟨"https://example.com", "Real", "", "https://example.com"⟩ ∧
      specDescription latin1CaseTable docEmptyDescription = "") ∧
    ((ExtractFromURL (world (.response 200 (some docTwoVocabularies)) .callError)
        "https://example.com").1
        = .ok ⟨"https://example.com", "", "", "https://example.com"⟩ ∧
      specDescription latin1CaseTable docTwoVocabularies = "Shared") ∧
    ((ExtractFromURL (world (.response 200 (some docNameOg)) .callError)
        "https://example.com").1
        = .ok ⟨"https://example.com", "Named", "", "https://example.com"⟩ ∧
      specDescription latin1CaseTable docNameOg = "") := by
  decide

/-- C9 (amended): for a fetched and parsed document, the Description is the content of
the first `<meta>` element in document order that is a description and whose content is
not empty, and is empty when there is none; a `<meta>` is a description when the
lowercased value of its last `name` or `property` attribute is "description" or
"og:description", and its content is the value of its last `content` attribute (empty
when it has none).  Later elements do not change a Description that is not empty. -/
theorem C9_description_source (env : Env) (url : String) (doc : Node)
    (h : env.httpGet url = .response 200 (some doc)) :
    ∃ m, (ExtractFromURL env url).1 = .ok m ∧
      m.Description
        = ((descriptionCandidates env.caseTable doc).find? (fun d => d ≠ "")).getD "" :=
  ⟨extractFromDoc env.caseTable url doc, by rw [ExtractFromURL_ok env url doc h],
    extractFromDoc_Description env.caseTable url doc⟩

/-- C9 (amended), a run: the page whose first description is empty. -/
theorem C9_description_source_witness :
    ∃ m, (ExtractFromURL (world (.response 200 (some docEmptyDescription)) .callError)
        "https://example.com").1 = .ok m ∧ m.Description = "Real" :=
  C9_description_source (world (.response 200 (some docEmptyDescription)) .callError)
    "https://example.com" docEmptyDescription rfl

end UrlShortener
